import Mathlib

/-!
Verification of the content-normalization pipeline of
`scripts/generate_daily.py`: the robust JSON loader (`safe_json_loads` with
`extract_json_block` and `repair_json`), the schema filler
(`normalize_payload` over `default_payload`), and the archive upsert
performed by `main` together with `load_archive`.

Python values parsed from JSON are embedded as the inductive `Json`;
mappings (`dict`) are association lists in insertion order.  Fallible
parsing returns `Option`; `json.loads` is modelled by a fuel-indexed
recursive-descent parser `pyJsonLoads` following the grammar accepted by
Python's `json` module (whitespace set, literals, strings with escapes,
numbers kept as their lexemes, `NaN`/`Infinity`).  Text approximations that
Python applies per Unicode tables (`str.strip`, `str.upper`, `repr`) are
modelled on their ASCII behaviour; none of the properties proved below
depends on the approximated region.
-/

set_option maxRecDepth 10000

/-- A Python value produced by `json.loads`: `None`, `bool`, numbers (kept as
their source lexeme), `str`, `list` and `dict` (association list in insertion
order). -/
inductive Json where
  | null : Json
  | bool : Bool → Json
  | num : String → Json
  | str : String → Json
  | arr : List Json → Json
  | obj : List (String × Json) → Json

namespace Json

mutual

/-- Structural equality test, recursing through the nested list positions. -/
def beq : Json → Json → Bool
  | .obj a, .obj b => beqFields a b
  | .arr a, .arr b => beqList a b
  | .str a, .str b => a == b
  | .num a, .num b => a == b
  | .bool a, .bool b => a == b
  | .null, .null => true
  | _, _ => false

def beqList : List Json → List Json → Bool
  | a :: as, b :: bs => beq a b && beqList as bs
  | [], [] => true
  | _, _ => false

def beqFields : List (String × Json) → List (String × Json) → Bool
  | (ka, va) :: as, (kb, vb) :: bs => ka == kb && beq va vb && beqFields as bs
  | [], [] => true
  | _, _ => false

end

mutual

theorem beq_iff_eq : ∀ a b : Json, beq a b = true ↔ a = b
  | .null, b => by cases b <;> simp [beq]
  | .bool _, b => by cases b <;> simp [beq]
  | .num _, b => by cases b <;> simp [beq]
  | .str _, b => by cases b <;> simp [beq]
  | .arr x, b => by
    cases b with
    | arr y => simp [beq, beqList_iff_eq x y]
    | null => simp [beq]
    | bool y => simp [beq]
    | num y => simp [beq]
    | str y => simp [beq]
    | obj y => simp [beq]
  | .obj x, b => by
    cases b with
    | obj y => simp [beq, beqFields_iff_eq x y]
    | null => simp [beq]
    | bool y => simp [beq]
    | num y => simp [beq]
    | str y => simp [beq]
    | arr y => simp [beq]

theorem beqList_iff_eq : ∀ a b : List Json, beqList a b = true ↔ a = b
  | x :: xs, y :: ys => by
    simp [beqList, beq_iff_eq x y, beqList_iff_eq xs ys]
  | [], [] => by simp [beqList]
  | [], _ :: _ => by simp [beqList]
  | _ :: _, [] => by simp [beqList]

theorem beqFields_iff_eq : ∀ a b : List (String × Json), beqFields a b = true ↔ a = b
  | (ka, va) :: xs, (kb, vb) :: ys => by
    simp [beqFields, beq_iff_eq va vb, beqFields_iff_eq xs ys, and_assoc]
  | [], [] => by simp [beqFields]
  | [], _ :: _ => by simp [beqFields]
  | _ :: _, [] => by simp [beqFields]

end

instance : DecidableEq Json := fun a b =>
  decidable_of_iff (beq a b = true) (beq_iff_eq a b)

/-- `isinstance(j, dict)`. -/
def isObj : Json → Bool
  | .obj _ => true
  | _ => false

/-- `d.get(k)` on a `dict` (`None`, i.e. `Option.none`, when the key is
absent); the callers below only apply it after an `isinstance(..., dict)`
check, so the non-`dict` case is never reached by the modelled code. -/
def get? : Json → String → Option Json
  | .obj kvs, k => kvs.lookup k
  | _, _ => none

/-- `d.get(k, default)`. -/
def getD (j : Json) (k : String) (d : Json) : Json :=
  (j.get? k).getD d

end Json

/-! ### The `json.loads` model

Python's `json` module accepts the RFC 8259 grammar plus `NaN`, `Infinity`
and `-Infinity`; whitespace between tokens is exactly `' '`, `'\t'`,
`'\n'`, `'\r'`.  Parsing works on `List Char` with a fuel argument bounding
the recursion depth. -/

/-- The whitespace accepted between JSON tokens (`json.decoder.WHITESPACE`). -/
def jsonWs (c : Char) : Bool :=
  c = ' ' || c = '\t' || c = '\n' || c = '\x0d'

/-- Skip inter-token whitespace. -/
def skipW (l : List Char) : List Char :=
  l.dropWhile jsonWs

/-- Value of one hexadecimal digit, both cases accepted. -/
def hexVal? (c : Char) : Option Nat :=
  if '0' ≤ c ∧ c ≤ '9' then some (c.toNat - 48)
  else if 'a' ≤ c ∧ c ≤ 'f' then some (c.toNat - 97 + 10)
  else if 'A' ≤ c ∧ c ≤ 'F' then some (c.toNat - 65 + 10)
  else none

/-- Append the optional fraction part of a number lexeme (`(\.\d+)?`). -/
def parseFrac (acc l : List Char) : List Char × List Char :=
  match l with
  | '.' :: r =>
    let ds := r.takeWhile Char.isDigit
    if ds.isEmpty then (acc, l) else (acc ++ '.' :: ds, r.dropWhile Char.isDigit)
  | _ => (acc, l)

/-- Append the optional exponent part of a number lexeme (`([eE][-+]?\d+)?`). -/
def parseExp (acc l : List Char) : List Char × List Char :=
  match l with
  | e :: r =>
    if e = 'e' ∨ e = 'E' then
      let (sgn, r2) : List Char × List Char :=
        match r with
        | '+' :: r2 => (['+'], r2)
        | '-' :: r2 => (['-'], r2)
        | _ => ([], r)
      let ds := r2.takeWhile Char.isDigit
      if ds.isEmpty then (acc, l)
      else (acc ++ e :: (sgn ++ ds), r2.dropWhile Char.isDigit)
    else (acc, l)
  | [] => (acc, l)

/-- A number per `json.scanner.NUMBER_RE`:
`-?(0|[1-9]\d*)(\.\d+)?([eE][-+]?\d+)?`, kept as its lexeme. -/
def parseNumber (l : List Char) : Option (Json × List Char) :=
  let (sign, l1) : List Char × List Char :=
    match l with
    | '-' :: r => (['-'], r)
    | _ => ([], l)
  match l1 with
  | [] => none
  | d :: r =>
    if d = '0' then
      let (lex1, r1) := parseFrac (sign ++ ['0']) r
      let (lex2, r2) := parseExp lex1 r1
      some (Json.num (String.mk lex2), r2)
    else if d.isDigit then
      let ds := r.takeWhile Char.isDigit
      let (lex1, r1) := parseFrac (sign ++ d :: ds) (r.dropWhile Char.isDigit)
      let (lex2, r2) := parseExp lex1 r1
      some (Json.num (String.mk lex2), r2)
    else none

/-- Body of a JSON string after the opening quote, strict mode: raw control
characters are refused, the listed escapes and `\uXXXX` are decoded,
surrogate pairs are combined.  A lone surrogate, which Python keeps as an
unpaired code unit that Lean's `Char` cannot represent, is modelled by
U+FFFD; no property below depends on it. -/
def parseStringAux : Nat → List Char → List Char → Option (String × List Char)
  | 0, _, _ => none
  | fuel + 1, l, acc =>
    match l with
    | [] => none
    | '"' :: r => some (String.mk acc.reverse, r)
    | '\\' :: rest =>
      (match rest with
       | [] => none
       | e :: r =>
         if e = '"' then parseStringAux fuel r ('"' :: acc)
         else if e = '\\' then parseStringAux fuel r ('\\' :: acc)
         else if e = '/' then parseStringAux fuel r ('/' :: acc)
         else if e = 'b' then parseStringAux fuel r ('\x08' :: acc)
         else if e = 'f' then parseStringAux fuel r ('\x0c' :: acc)
         else if e = 'n' then parseStringAux fuel r ('\n' :: acc)
         else if e = 'r' then parseStringAux fuel r ('\x0d' :: acc)
         else if e = 't' then parseStringAux fuel r ('\t' :: acc)
         else if e = 'u' then
           match r with
           | h1 :: h2 :: h3 :: h4 :: r2 =>
             (match hexVal? h1, hexVal? h2, hexVal? h3, hexVal? h4 with
              | some a, some b, some c, some d =>
                let n := ((a * 16 + b) * 16 + c) * 16 + d
                if 0xD800 ≤ n ∧ n ≤ 0xDBFF then
                  match r2 with
                  | '\\' :: 'u' :: g1 :: g2 :: g3 :: g4 :: r3 =>
                    (match hexVal? g1, hexVal? g2, hexVal? g3, hexVal? g4 with
                     | some a2, some b2, some c2, some d2 =>
                       let m := ((a2 * 16 + b2) * 16 + c2) * 16 + d2
                       if 0xDC00 ≤ m ∧ m ≤ 0xDFFF then
                         parseStringAux fuel r3
                           (Char.ofNat (0x10000 + (n - 0xD800) * 0x400 + (m - 0xDC00)) :: acc)
                       else parseStringAux fuel r2 ('�' :: acc)
                     | _, _, _, _ => parseStringAux fuel r2 ('�' :: acc))
                  | _ => parseStringAux fuel r2 ('�' :: acc)
                else if 0xDC00 ≤ n ∧ n ≤ 0xDFFF then
                  parseStringAux fuel r2 ('�' :: acc)
                else
                  parseStringAux fuel r2 (Char.ofNat n :: acc)
              | _, _, _, _ => none)
           | _ => none
         else none)
    | c :: r =>
      if c.toNat < 0x20 then none
      else parseStringAux fuel r (c :: acc)

/-- Build a `dict` entry the way CPython's `dict(pairs)` does: a repeated key
keeps its first position and takes the latest value. -/
def objInsert (kvs : List (String × Json)) (k : String) (v : Json) : List (String × Json) :=
  if kvs.any (fun p => p.1 = k) then
    kvs.map (fun p => if p.1 = k then (k, v) else p)
  else kvs ++ [(k, v)]

mutual

/-- One JSON value starting at the head of the input (no leading-whitespace
skip, as in `json.scanner._scan_once`). -/
def parseValue : Nat → List Char → Option (Json × List Char)
  | 0, _ => none
  | _ + 1, [] => none
  | fuel + 1, c :: cs =>
    if c = '{' then
      match skipW cs with
      | '}' :: r => some (Json.obj [], r)
      | l2 =>
        match parseMembers fuel l2 [] with
        | some (kvs, r) => some (Json.obj kvs, r)
        | none => none
    else if c = '[' then
      match skipW cs with
      | ']' :: r => some (Json.arr [], r)
      | l2 =>
        match parseItems fuel l2 [] with
        | some (vs, r) => some (Json.arr vs, r)
        | none => none
    else if c = '"' then
      match parseStringAux fuel cs [] with
      | some (s, r) => some (Json.str s, r)
      | none => none
    else if c = 't' then
      match cs with
      | 'r' :: 'u' :: 'e' :: r => some (Json.bool true, r)
      | _ => none
    else if c = 'f' then
      match cs with
      | 'a' :: 'l' :: 's' :: 'e' :: r => some (Json.bool false, r)
      | _ => none
    else if c = 'n' then
      match cs with
      | 'u' :: 'l' :: 'l' :: r => some (Json.null, r)
      | _ => none
    else if c = 'N' then
      match cs with
      | 'a' :: 'N' :: r => some (Json.num "NaN", r)
      | _ => none
    else if c = 'I' then
      match cs with
      | 'n' :: 'f' :: 'i' :: 'n' :: 'i' :: 't' :: 'y' :: r => some (Json.num "Infinity", r)
      | _ => none
    else if c = '-' then
      match cs with
      | 'I' :: 'n' :: 'f' :: 'i' :: 'n' :: 'i' :: 't' :: 'y' :: r =>
        some (Json.num "-Infinity", r)
      | _ => parseNumber (c :: cs)
    else if c.isDigit then
      parseNumber (c :: cs)
    else none

/-- Members of an object after its opening brace (first key expected at the
head), as the accumulated association list; mirrors
`json.decoder.JSONObject`, so a comma must be followed by a key. -/
def parseMembers : Nat → List Char → List (String × Json) →
    Option (List (String × Json) × List Char)
  | 0, _, _ => none
  | fuel + 1, l, acc =>
    match l with
    | '"' :: cs =>
      (match parseStringAux fuel cs [] with
       | none => none
       | some (k, r1) =>
         match skipW r1 with
         | ':' :: r3 =>
           (match parseValue fuel (skipW r3) with
            | none => none
            | some (v, r4) =>
              let acc2 := objInsert acc k v
              match skipW r4 with
              | ',' :: r6 => parseMembers fuel (skipW r6) acc2
              | '}' :: r6 => some (acc2, r6)
              | _ => none)
         | _ => none)
    | _ => none

/-- Items of an array after its `[` (first item expected at the head);
mirrors `json.decoder.JSONArray`. -/
def parseItems : Nat → List Char → List Json → Option (List Json × List Char)
  | 0, _, _ => none
  | fuel + 1, l, acc =>
    match parseValue fuel l with
    | none => none
    | some (v, r1) =>
      match skipW r1 with
      | ',' :: r3 => parseItems fuel (skipW r3) (acc ++ [v])
      | ']' :: r3 => some (acc ++ [v], r3)
      | _ => none

end

/-- `json.loads` on a character list: skip leading whitespace, read one
value, refuse trailing non-whitespace ("Extra data").  `none` models the
raised `JSONDecodeError`.  The fuel is generous for the input's length, and
no theorem below depends on its exact value. -/
def pyJsonLoadsL (l : List Char) : Option Json :=
  match parseValue (2 * l.length + 2) (skipW l) with
  | some (v, rest) => if (skipW rest).isEmpty then some v else none
  | none => none

/-- `json.loads` on a string. -/
def pyJsonLoads (s : String) : Option Json :=
  pyJsonLoadsL s.data

example : pyJsonLoads "42" = some (Json.num "42") := by decide
example : pyJsonLoads " null " = some Json.null := by decide
example : pyJsonLoads "" = none := by decide

/-! ### `extract_json_block`, `repair_json`, `safe_json_loads` -/

/-- Python's `\s` on the repaired text and `str.strip`'s default set, on
their ASCII part (Python additionally strips non-ASCII Unicode whitespace;
no string handled below contains any). -/
def pySpace (c : Char) : Bool :=
  c = ' ' || c = '\t' || c = '\n' || c = '\x0d' || c = '\x0b' || c = '\x0c'

/-- Longest prefix ending at the last `}` of the input (empty when the input
has no `}`): the greedy right end of the regex `\{.*\}` with `re.S`. -/
def cutTail (t : List Char) : List Char :=
  (t.reverse.dropWhile (fun c => c != '}')).reverse

/-- `extract_json_block`: `re.search(r"\{.*\}", text, flags=re.S)` — the
leftmost position where a match can start is the first `{`, and the greedy
`.*` runs to the last `}` of the text; empty result models "no match". -/
def extract_json_block : List Char → List Char
  | [] => []
  | c :: t => if c = '{' then cutTail (c :: t) else extract_json_block t

/-- One pass of `re.sub(r",\s*([}\]])", r"\1", s)`, fuel-indexed so that the
recursion is structural: scanning left to right, a comma followed by
whitespace and a closing `}` or `]` is replaced by that closer, and scanning
resumes after it (`re.sub` matches do not overlap).  Each step consumes at
least one character, so fuel equal to the length never runs out. -/
def stripTCAux : Nat → List Char → List Char
  | 0, l => l
  | _ + 1, [] => []
  | fuel + 1, c :: rest =>
    if c = ',' then
      match rest.dropWhile pySpace with
      | d :: rest2 =>
        if d = '}' ∨ d = ']' then d :: stripTCAux fuel rest2
        else c :: stripTCAux fuel rest
      | [] => c :: stripTCAux fuel rest
    else c :: stripTCAux fuel rest

/-- `re.sub(r",\s*([}\]])", r"\1", s)`. -/
def stripTrailingCommas (l : List Char) : List Char :=
  stripTCAux l.length l

/-- `s.replace(a, b)` for a single-character pattern and replacement. -/
def replOne (a b : Char) (l : List Char) : List Char :=
  l.map (fun c => if c = a then b else c)

/-- `repair_json` on a character list: the guard `if not s: return s`, then
the four chained `str.replace` calls normalizing typographic quotes, then
the trailing-comma deletion. -/
def repair_jsonL (s : List Char) : List Char :=
  if s.isEmpty then s
  else stripTrailingCommas (replOne '‘' '\'' (replOne '’' '\'' (replOne '”' '"' (replOne '“' '"' s))))

/-- `repair_json` on strings. -/
def repair_json (s : String) : String :=
  String.mk (repair_jsonL s.data)

/-- `safe_json_loads`: parse the raw text; on failure parse the extracted
block (empty block short-circuits to `{}`); on failure parse the repaired
block; on failure return `{}`.  Every `except Exception` of the source is a
`none` branch here, so the function is total — it never raises. -/
def safe_json_loads (text : String) : Json :=
  match pyJsonLoads text with
  | some v => v
  | none =>
    let block := extract_json_block text.data
    if block.isEmpty then Json.obj []
    else
      match pyJsonLoadsL block with
      | some v => v
      | none =>
        match pyJsonLoadsL (repair_jsonL block) with
        | some v => v
        | none => Json.obj []

/-! ### The spec's wording of the normalizer, for the refinement claim C6 -/

/-- Modelled from the spec: "normalize typographic quotation marks (curly
double/single quotes) to straight ASCII quotes", as one character map. -/
def specQuoteFix (c : Char) : Char :=
  if c = '“' then '"'
  else if c = '”' then '"'
  else if c = '’' then '\''
  else if c = '‘' then '\''
  else c

/-- Modelled from the spec: "apply light repair to the substring — normalize
typographic quotation marks ... and strip trailing commas immediately before
a closing `}` or `]`". -/
def specRepair (l : List Char) : List Char :=
  stripTrailingCommas (l.map specQuoteFix)

/-- Modelled from the spec: "locate a JSON-object-shaped substring by
finding the first `{` and the last `}` in the text"; the last `}` must come
after the first `{` for such a substring to exist, and the empty result
models its absence. -/
def specExtract (l : List Char) : List Char :=
  cutTail (l.dropWhile (fun c => c != '{'))

/-- Modelled from the spec, §4.1: the four strategies attempted in order,
first success winning; empty mapping when all fail. -/
def normalize_spec (rawText : String) : Json :=
  match pyJsonLoads rawText with
  | some v => v
  | none =>
    let block := specExtract rawText.data
    match pyJsonLoadsL block with
    | some v => v
    | none =>
      match pyJsonLoadsL (specRepair block) with
      | some v => v
      | none => Json.obj []

example : safe_json_loads "not json at all" = Json.obj [] := by decide
example : safe_json_loads "x \x7b\"a\": 1,\x7d y" = Json.obj [("a", Json.num "1")] := by decide

/-! ### Python string conversions used by `normalize_payload`

`str(x)` on a parsed JSON value, `str.strip`, `str.upper`, `str.lower`.
`repr` of a float and Unicode-table-dependent behaviour (non-ASCII
printability in `repr`, non-ASCII case mapping) are approximated; every
string the proofs below evaluate these on is ASCII text, a plain scalar or
an empty container, where the model is exact. -/

/-- `str()` of an int or float parsed by `json`, from its lexeme.  A float's
`repr` is approximated by its lexeme. -/
def numStr (lex : String) : String :=
  if lex = "NaN" then "nan"
  else if lex = "Infinity" then "inf"
  else if lex = "-Infinity" then "-inf"
  else if lex.data.any (fun c => c = '.' || c = 'e' || c = 'E') then lex
  else if lex = "-0" then "0"
  else lex

/-- Hexadecimal digit character, lower case. -/
def hexDigitChar (n : Nat) : Char :=
  if n < 10 then Char.ofNat (48 + n) else Char.ofNat (87 + n)

/-- One character inside `repr` of a Python str, for quote character `q`. -/
def pyCharRepr (q c : Char) : List Char :=
  if c = '\\' then ['\\', '\\']
  else if c = q then ['\\', q]
  else if c = '\n' then ['\\', 'n']
  else if c = '\x0d' then ['\\', 'r']
  else if c = '\t' then ['\\', 't']
  else if c.toNat < 32 || c.toNat = 127 then
    ['\\', 'x', hexDigitChar (c.toNat / 16), hexDigitChar (c.toNat % 16)]
  else [c]

/-- `repr` of a Python str: single quotes unless the text has `'` and no
`"`; printable non-ASCII kept as-is (ASCII approximation of the
printability table). -/
def pyStrRepr (s : String) : String :=
  let q := if s.data.contains '\'' && !(s.data.contains '"') then '"' else '\''
  String.mk (q :: ((s.data.map (pyCharRepr q)).flatten ++ [q]))

mutual

/-- `repr()` of a parsed JSON value. -/
def pyRepr : Json → String
  | .null => "None"
  | .bool true => "True"
  | .bool false => "False"
  | .num lex => numStr lex
  | .str s => pyStrRepr s
  | .arr xs => "[" ++ pyReprList xs ++ "]"
  | .obj kvs => "\x7b" ++ pyReprPairs kvs ++ "\x7d"

def pyReprList : List Json → String
  | [] => ""
  | [x] => pyRepr x
  | x :: xs => pyRepr x ++ ", " ++ pyReprList xs

def pyReprPairs : List (String × Json) → String
  | [] => ""
  | [(k, v)] => pyStrRepr k ++ ": " ++ pyRepr v
  | (k, v) :: xs => pyStrRepr k ++ ": " ++ pyRepr v ++ ", " ++ pyReprPairs xs

end

/-- `str()` of a parsed JSON value: identity on `str`, `repr` otherwise
(`str` and `repr` agree on `None`, booleans, numbers, lists and dicts). -/
def pyStr : Json → String
  | .str s => s
  | j => pyRepr j

/-- `str.strip()` with no argument, on its ASCII whitespace part. -/
def pyStrip (s : String) : String :=
  String.mk (((s.data.dropWhile pySpace).reverse.dropWhile pySpace).reverse)

/-- `str.upper()`, ASCII. -/
def pyUpper (s : String) : String :=
  String.mk (s.data.map Char.toUpper)

/-- `str.lower()`, ASCII. -/
def pyLower (s : String) : String :=
  String.mk (s.data.map Char.toLower)

example : pyStr (Json.arr [Json.num "1", Json.str "a"]) = "[1, 'a']" := by decide
example : pyStrip "  hi\n " = "hi" := by decide

/-! ### The content record, `default_payload` and `normalize_payload` -/

/-- One entry of `words`: `{"word": ..., "ko": ..., "en": ...}`. -/
structure WordEntry where
  word : String
  ko : String
  en : String
deriving DecidableEq

/-- `quiz.tf`. -/
structure TFQuiz where
  q : String
  answer : Bool
deriving DecidableEq

/-- `choices` of `quiz.mcq` / `quiz.pic`. -/
structure Choices where
  A : String
  B : String
  C : String
deriving DecidableEq

/-- `quiz.mcq` and `quiz.pic`. -/
structure ChoiceQuiz where
  q : String
  choices : Choices
  answer : String
deriving DecidableEq

/-- The `quiz` object. -/
structure QuizSet where
  tf : TFQuiz
  mcq : ChoiceQuiz
  pic : ChoiceQuiz
deriving DecidableEq

/-- The dictionary `normalize_payload` returns; its keys and their types are
fixed by `default_payload` and never change, so it is embedded as a
structure.  `_debug` holds only the headline. -/
structure Payload where
  title : String
  topic : String
  story : List String
  words : List WordEntry
  read_aloud : String
  quiz : QuizSet
  parent_note_ko : String
  debug_headline : String
deriving DecidableEq

/-- `default_payload`'s `"title"`. -/
def defTitle : String := "Nature Story Time!"

/-- `default_payload`'s `"topic"`. -/
def defTopic : String := "nature"

/-- `default_payload`'s `"story"`. -/
def defStory : List String :=
  ["Hello! Let’s read a story about nature.",
   "This story is easy and fun.",
   "We will learn five new words today.",
   "Let’s read together!"]

/-- `default_payload`'s `"words"`. -/
def defWords : List WordEntry :=
  [{ word := "animal", ko := "동물", en := "a living creature" },
   { word := "forest", ko := "숲", en := "a place with many trees" },
   { word := "river", ko := "강", en := "moving water" },
   { word := "grow", ko := "자라다", en := "get bigger" },
   { word := "safe", ko := "안전한", en := "not in danger" }]

/-- `default_payload`'s `"read_aloud"`. -/
def defReadAloud : String :=
  "Hello! / Let’s read a story about nature. / This story is easy and fun. / We will learn five new words today. / Let’s read together!"

/-- `default_payload`'s `"quiz"`. -/
def defQuiz : QuizSet :=
  { tf := { q := "True or False: Nature is all around us.", answer := true },
    mcq := { q := "Choose one: Where do trees grow?",
             choices := { A := "Forest", B := "Phone", C := "Shoe" },
             answer := "A" },
    pic := { q := "Pick the nature emoji!",
             choices := { A := "🌳", B := "🚗", C := "📱" },
             answer := "A" } }

/-- `default_payload`'s `"parent_note_ko"`. -/
def defParentNote : String :=
  "오늘은 STORY를 2번 읽고, WORDS 5개만 확실히 익히면 충분합니다."

/-- `default_payload(headline)`. -/
def default_payload (headline : String) : Payload :=
  { title := defTitle
    topic := defTopic
    story := defStory
    words := defWords
    read_aloud := defReadAloud
    quiz := defQuiz
    parent_note_ko := defParentNote
    debug_headline := headline }

/-- The `allowed` topic set. -/
def allowedTopics : List String :=
  ["space", "animals", "nature", "sports", "vehicles", "food", "people",
   "science", "weather", "general"]

/-- The `story` cleaning: `[str(x).strip() for x in story if str(x).strip()]`. -/
def cleanStory (xs : List Json) : List String :=
  (xs.map (fun x => pyStrip (pyStr x))).filter (fun s => !s.isEmpty)

/-- The `words` cleaning loop: keep `dict` entries whose stripped `word` is
non-empty, with `ko` and `en` defaulting to the empty string. -/
def cleanWords : List Json → List WordEntry
  | [] => []
  | w :: rest =>
    if w.isObj then
      let ww := pyStrip (pyStr (w.getD "word" (Json.str "")))
      if ww = "" then cleanWords rest
      else
        { word := ww
          ko := pyStrip (pyStr (w.getD "ko" (Json.str "")))
          en := pyStrip (pyStr (w.getD "en" (Json.str ""))) } :: cleanWords rest
    else cleanWords rest

/-- The `quiz` block of `normalize_payload`, one record update per source
statement, applied to the current (default) quiz `q0` when
`isinstance(quiz, dict)` holds. -/
def applyQuiz (quiz : Json) (q0 : QuizSet) : QuizSet :=
  let tfj := quiz.get? "tf"
  let a1 := { q0 with tf.q :=
    match tfj with
    | some (Json.obj tfv) =>
      (match (Json.obj tfv).get? "q" with
       | some (Json.str s) => if pyStrip s ≠ "" then pyStrip s else q0.tf.q
       | _ => q0.tf.q)
    | _ => q0.tf.q }
  let a2 := { a1 with tf.answer :=
    match tfj with
    | some (Json.obj tfv) =>
      (match (Json.obj tfv).get? "answer" with
       | some (Json.bool b) => b
       | _ => a1.tf.answer)
    | _ => a1.tf.answer }
  let mcqj := quiz.get? "mcq"
  let a3 := { a2 with mcq.q :=
    match mcqj with
    | some (Json.obj m) =>
      (match (Json.obj m).get? "q" with
       | some (Json.str s) => if pyStrip s ≠ "" then pyStrip s else a2.mcq.q
       | _ => a2.mcq.q)
    | _ => a2.mcq.q }
  let a4 := { a3 with mcq.choices.A :=
    match mcqj with
    | some (Json.obj m) =>
      (match (Json.obj m).get? "choices" with
       | some (Json.obj ch) =>
         pyStrip (pyStr ((Json.obj ch).getD "A" (Json.str a3.mcq.choices.A)))
       | _ => a3.mcq.choices.A)
    | _ => a3.mcq.choices.A }
  let a5 := { a4 with mcq.choices.B :=
    match mcqj with
    | some (Json.obj m) =>
      (match (Json.obj m).get? "choices" with
       | some (Json.obj ch) =>
         pyStrip (pyStr ((Json.obj ch).getD "B" (Json.str a4.mcq.choices.B)))
       | _ => a4.mcq.choices.B)
    | _ => a4.mcq.choices.B }
  let a6 := { a5 with mcq.choices.C :=
    match mcqj with
    | some (Json.obj m) =>
      (match (Json.obj m).get? "choices" with
       | some (Json.obj ch) =>
         pyStrip (pyStr ((Json.obj ch).getD "C" (Json.str a5.mcq.choices.C)))
       | _ => a5.mcq.choices.C)
    | _ => a5.mcq.choices.C }
  let a7 := { a6 with mcq.answer :=
    match mcqj with
    | some (Json.obj m) =>
      (match (Json.obj m).get? "answer" with
       | some (Json.str s) =>
         let ans := pyUpper (pyStrip s)
         if ans = "A" ∨ ans = "B" ∨ ans = "C" then ans else a6.mcq.answer
       | _ => a6.mcq.answer)
    | _ => a6.mcq.answer }
  let picj := quiz.get? "pic"
  let a8 := { a7 with pic.q :=
    match picj with
    | some (Json.obj p) =>
      (match (Json.obj p).get? "q" with
       | some (Json.str s) => if pyStrip s ≠ "" then pyStrip s else a7.pic.q
       | _ => a7.pic.q)
    | _ => a7.pic.q }
  let a9 := { a8 with pic.choices.A :=
    match picj with
    | some (Json.obj p) =>
      (match (Json.obj p).get? "choices" with
       | some (Json.obj ch) =>
         pyStrip (pyStr ((Json.obj ch).getD "A" (Json.str a8.pic.choices.A)))
       | _ => a8.pic.choices.A)
    | _ => a8.pic.choices.A }
  let a10 := { a9 with pic.choices.B :=
    match picj with
    | some (Json.obj p) =>
      (match (Json.obj p).get? "choices" with
       | some (Json.obj ch) =>
         pyStrip (pyStr ((Json.obj ch).getD "B" (Json.str a9.pic.choices.B)))
       | _ => a9.pic.choices.B)
    | _ => a9.pic.choices.B }
  let a11 := { a10 with pic.choices.C :=
    match picj with
    | some (Json.obj p) =>
      (match (Json.obj p).get? "choices" with
       | some (Json.obj ch) =>
         pyStrip (pyStr ((Json.obj ch).getD "C" (Json.str a10.pic.choices.C)))
       | _ => a10.pic.choices.C)
    | _ => a10.pic.choices.C }
  { a11 with pic.answer :=
    match picj with
    | some (Json.obj p) =>
      (match (Json.obj p).get? "answer" with
       | some (Json.str s) =>
         let ans := pyUpper (pyStrip s)
         if ans = "A" ∨ ans = "B" ∨ ans = "C" then ans else a11.pic.answer
       | _ => a11.pic.answer)
    | _ => a11.pic.answer }

/-- `normalize_payload(j, headline)`, one record update per source
statement: non-`dict` input replaced by `{}`, then each field of the
default document overwritten exactly when the corresponding source `if`
fires. -/
def normalize_payload (j0 : Json) (headline : String) : Payload :=
  let j := if j0.isObj then j0 else Json.obj []
  let out0 := default_payload headline
  let out1 := { out0 with title :=
    match (j.get? "title") with
    | some (Json.str s) => if pyStrip s ≠ "" then pyStrip s else out0.title
    | _ => out0.title }
  let out2 := { out1 with topic :=
    match (j.get? "topic") with
    | some (Json.str s) =>
      let t := pyLower (pyStrip s)
      if t ∈ allowedTopics then t else out1.topic
    | _ => out1.topic }
  let out3 := { out2 with story :=
    match (j.get? "story") with
    | some (Json.arr xs) =>
      let clean := cleanStory xs
      if clean ≠ [] then clean.take 4 else out2.story
    | _ => out2.story }
  let out4 := { out3 with words :=
    match (j.get? "words") with
    | some (Json.arr ws) =>
      let cleaned := cleanWords ws
      if cleaned ≠ [] then cleaned.take 5 else out3.words
    | _ => out3.words }
  let out5 := { out4 with read_aloud :=
    match (j.get? "read_aloud") with
    | some (Json.str s) =>
      if pyStrip s ≠ "" then pyStrip s else String.intercalate " / " out4.story
    | _ => String.intercalate " / " out4.story }
  let out6 := { out5 with quiz :=
    match (j.get? "quiz") with
    | some (Json.obj q) => applyQuiz (Json.obj q) out5.quiz
    | _ => out5.quiz }
  { out6 with parent_note_ko :=
    match (j.get? "parent_note_ko") with
    | some (Json.str s) => if pyStrip s ≠ "" then pyStrip s else out6.parent_note_ko
    | _ => out6.parent_note_ko }

example : (normalize_payload (Json.obj []) "h").title = defTitle := rfl
example : (normalize_payload (Json.obj []) "h").read_aloud = String.intercalate " / " defStory := rfl

/-! ### Per-field projections of `normalize_payload`

Each function computes one output field from the value at its own key
alone (the read-aloud field additionally takes the already-computed story).
`normalize_payload_fields` states that the sequential updates of the source
factor into these independent projections. -/

/-- The `title` field as a function of `j.get("title")`. -/
def titleField (o : Option Json) : String :=
  match o with
  | some (Json.str s) => if pyStrip s ≠ "" then pyStrip s else defTitle
  | _ => defTitle

/-- The `topic` field as a function of `j.get("topic")`. -/
def topicField (o : Option Json) : String :=
  match o with
  | some (Json.str s) =>
    let t := pyLower (pyStrip s)
    if t ∈ allowedTopics then t else defTopic
  | _ => defTopic

/-- The `story` field as a function of `j.get("story")`. -/
def storyField (o : Option Json) : List String :=
  match o with
  | some (Json.arr xs) =>
    let clean := cleanStory xs
    if clean ≠ [] then clean.take 4 else defStory
  | _ => defStory

/-- The `words` field as a function of `j.get("words")`. -/
def wordsField (o : Option Json) : List WordEntry :=
  match o with
  | some (Json.arr ws) =>
    let cleaned := cleanWords ws
    if cleaned ≠ [] then cleaned.take 5 else defWords
  | _ => defWords

/-- The `read_aloud` field as a function of `j.get("read_aloud")` and the
final story lines. -/
def readAloudField (o : Option Json) (story : List String) : String :=
  match o with
  | some (Json.str s) =>
    if pyStrip s ≠ "" then pyStrip s else String.intercalate " / " story
  | _ => String.intercalate " / " story

/-- The `quiz` field as a function of `j.get("quiz")`. -/
def quizField (o : Option Json) : QuizSet :=
  match o with
  | some (Json.obj q) => applyQuiz (Json.obj q) defQuiz
  | _ => defQuiz

/-- The `parent_note_ko` field as a function of `j.get("parent_note_ko")`. -/
def noteField (o : Option Json) : String :=
  match o with
  | some (Json.str s) => if pyStrip s ≠ "" then pyStrip s else defParentNote
  | _ => defParentNote

/-! ### Per-field projections of the quiz block (for C4) -/

/-- A quiz sub-object's `q`: present non-empty strings are kept trimmed,
anything else keeps the default `d`. -/
def quizQField (o : Option Json) (d : String) : String :=
  match o with
  | some (Json.obj m) =>
    (match (Json.obj m).get? "q" with
     | some (Json.str s) => if pyStrip s ≠ "" then pyStrip s else d
     | _ => d)
  | _ => d

/-- `tf.answer`: genuine booleans only, anything else keeps the default. -/
def tfAnswerField (o : Option Json) (d : Bool) : Bool :=
  match o with
  | some (Json.obj m) =>
    (match (Json.obj m).get? "answer" with
     | some (Json.bool b) => b
     | _ => d)
  | _ => d

/-- One choice entry, keyed by `key`, of an `mcq`/`pic` sub-object. -/
def choiceField (key : String) (o : Option Json) (d : String) : String :=
  match o with
  | some (Json.obj m) =>
    (match (Json.obj m).get? "choices" with
     | some (Json.obj ch) => pyStrip (pyStr ((Json.obj ch).getD key (Json.str d)))
     | _ => d)
  | _ => d

/-- An `mcq`/`pic` answer key: a supplied string is stripped and upper-cased
and kept only when the result is `A`, `B` or `C`; otherwise the default `d`
is kept. -/
def keyAnswerField (o : Option Json) (d : String) : String :=
  match o with
  | some (Json.obj m) =>
    (match (Json.obj m).get? "answer" with
     | some (Json.str s) =>
       let ans := pyUpper (pyStrip s)
       if ans = "A" ∨ ans = "B" ∨ ans = "C" then ans else d
     | _ => d)
  | _ => d

/-- `normalize_payload` factors into independent per-field projections: each
output field depends only on the value at its own key (read-aloud also on
the computed story), with a non-`dict` input behaving as `{}` because
`Json.get?` is `none` on both. -/
theorem normalize_payload_fields (j : Json) (h : String) :
    normalize_payload j h =
      { title := titleField (j.get? "title")
        topic := topicField (j.get? "topic")
        story := storyField (j.get? "story")
        words := wordsField (j.get? "words")
        read_aloud := readAloudField (j.get? "read_aloud") (storyField (j.get? "story"))
        quiz := quizField (j.get? "quiz")
        parent_note_ko := noteField (j.get? "parent_note_ko")
        debug_headline := h } := by
  cases j with
  | obj kvs =>
    simp only [normalize_payload, default_payload, Json.isObj, if_true,
      titleField, topicField, storyField, wordsField, readAloudField,
      quizField, noteField]
  | null => rfl
  | bool b => rfl
  | num n => rfl
  | str s => rfl
  | arr xs => rfl

/-! ### The archive: `load_archive` and the upsert in `main` -/

/-- One entry of `archive.json` as `main` writes it:
`{"date": TODAY, "file": filename, "title": j["title"]}`. -/
structure ArchiveEntry where
  date : String
  file : String
  title : String
deriving DecidableEq

/-- The day-page path `main` derives from the date: `days/` ++ date ++ `.html`. -/
def dayFile (d : String) : String :=
  "days/" ++ d ++ ".html"

/-- The archive update in `main`: drop every entry whose `date` equals the
new entry's, then insert the new entry at position 0. -/
def upsert (archive : List ArchiveEntry) (entry : ArchiveEntry) : List ArchiveEntry :=
  entry :: archive.filter (fun a => a.date != entry.date)

/-- `load_archive`, with the persisted file as `Option String` (its contents
when it exists).  A missing file gives `[]`; `json.load` on a malformed file
raises `JSONDecodeError`, modelled by `Except.error`, and `load_archive`
has no handler for it. -/
def load_archive (fs : Option String) : Except Unit Json :=
  match fs with
  | none => Except.ok (Json.arr [])
  | some txt =>
    match pyJsonLoads txt with
    | some v => Except.ok v
    | none => Except.error ()

/-- Lexicographic order on character lists, by code point: the order in
which Python compares the ISO `YYYY-MM-DD` date strings, on which it
coincides with chronological order. -/
def charListLtb : List Char → List Char → Bool
  | [], [] => false
  | [], _ :: _ => true
  | _ :: _, [] => false
  | a :: as, b :: bs => if a < b then true else if b < a then false else charListLtb as bs

/-- Strict date order. -/
def dateLt (a b : String) : Prop :=
  charListLtb a.data b.data = true

/-- Reflexive date order. -/
def dateLe (a b : String) : Prop :=
  charListLtb b.data a.data = false

/-- The spec's archive invariants: strictly descending dates (most recent
first, hence at most one entry per date) and each entry's file path derived
from its date. -/
def validArchive (l : List ArchiveEntry) : Prop :=
  l.Pairwise (fun a b => dateLt b.date a.date) ∧ ∀ a ∈ l, a.file = dayFile a.date

instance (a b : String) : Decidable (dateLt a b) :=
  inferInstanceAs (Decidable (charListLtb a.data b.data = true))

instance (a b : String) : Decidable (dateLe a b) :=
  inferInstanceAs (Decidable (charListLtb b.data a.data = false))

instance (l : List ArchiveEntry) : Decidable (validArchive l) :=
  show Decidable
      (l.Pairwise (fun a b => dateLt b.date a.date) ∧ ∀ a ∈ l, a.file = dayFile a.date) from
    inferInstance

theorem charListLtb_irrefl : ∀ as, charListLtb as as = false
  | [] => rfl
  | a :: as => by
    simp only [charListLtb, lt_irrefl, if_false]
    exact charListLtb_irrefl as

theorem charListLtb_trichotomy : ∀ as bs,
    charListLtb as bs = true ∨ as = bs ∨ charListLtb bs as = true
  | [], [] => Or.inr (Or.inl rfl)
  | [], _ :: _ => Or.inl rfl
  | _ :: _, [] => Or.inr (Or.inr rfl)
  | a :: as, b :: bs => by
    rcases lt_trichotomy a b with hab | hab | hab
    · left
      simp [charListLtb, hab]
    · subst hab
      rcases charListLtb_trichotomy as bs with h | h | h
      · left
        simp [charListLtb, lt_irrefl, h]
      · right; left
        rw [h]
      · right; right
        simp [charListLtb, lt_irrefl, h]
    · right; right
      simp [charListLtb, hab]

/-- A string no later than `b` and different from it is strictly earlier. -/
theorem dateLt_of_dateLe_of_ne {a b : String} (hle : dateLe a b) (hne : a ≠ b) :
    dateLt a b := by
  rcases charListLtb_trichotomy a.data b.data with h | h | h
  · exact h
  · refine absurd ?_ hne
    cases a; cases b
    simp only at h
    rw [h]
  · exact absurd h (by simpa [dateLe] using hle)

/-- Strict date order is irreflexive in the form needed for uniqueness. -/
theorem dateLt_ne {a b : String} (hlt : dateLt a b) : a ≠ b := by
  intro he
  subst he
  exact absurd (hlt.symm.trans (charListLtb_irrefl a.data)) (by simp)

example : upsert [⟨"2026-02-02", dayFile "2026-02-02", "old"⟩] ⟨"2026-02-02", dayFile "2026-02-02", "new"⟩
    = [⟨"2026-02-02", dayFile "2026-02-02", "new"⟩] := by decide

/-! ### Obj-shape of the fallback parses (for C1) -/

/-- A successful parse that starts at a `{` yields a `dict`. -/
theorem parseValue_brace_isObj (fuel : Nat) (cs rest : List Char) (v : Json)
    (h : parseValue fuel ('{' :: cs) = some (v, rest)) : v.isObj = true := by
  cases fuel with
  | zero => simp [parseValue] at h
  | succ n =>
    simp only [parseValue, reduceIte] at h
    split at h
    · simp only [Option.some.injEq, Prod.mk.injEq] at h
      exact h.1 ▸ rfl
    · split at h
      · simp only [Option.some.injEq, Prod.mk.injEq] at h
        exact h.1 ▸ rfl
      · exact absurd h (by simp)

/-- `json.loads` on text whose first character is `{` yields a `dict` when
it succeeds. -/
theorem pyJsonLoadsL_brace_isObj (t : List Char) (v : Json)
    (h : pyJsonLoadsL ('{' :: t) = some v) : v.isObj = true := by
  have hskip : skipW ('{' :: t) = '{' :: t := rfl
  simp only [pyJsonLoadsL, hskip] at h
  split at h
  · rename_i v' rest hpv
    split at h
    · exact (Option.some.injEq _ _ ▸ h : v' = v) ▸ parseValue_brace_isObj _ _ _ _ hpv
    · exact absurd h (by simp)
  · exact absurd h (by simp)

/-- `extract_json_block` returns either nothing or a block that starts at
the first `{`. -/
theorem extract_json_block_shape (l : List Char) :
    extract_json_block l = [] ∨ ∃ t, extract_json_block l = '{' :: t := by
  induction l with
  | nil => left; rfl
  | cons c t ih =>
    by_cases hc : c = '{'
    · subst hc
      rw [extract_json_block, if_pos rfl]
      cases hv : ('{' :: t).reverse.dropWhile (fun c => c != '}') with
      | nil => left; unfold cutTail; rw [hv]; rfl
      | cons d ds =>
        right
        have hsuf : ('{' :: t).reverse.dropWhile (fun c => c != '}') <:+ ('{' :: t).reverse :=
          List.dropWhile_suffix _
        obtain ⟨w, hw⟩ := hsuf
        have hlast : (('{' :: t).reverse).getLast? = some '{' := by
          rw [List.getLast?_reverse]; rfl
        rw [← hw, List.getLast?_append_of_ne_nil _ (by rw [hv]; simp)] at hlast
        have hhead : (cutTail ('{' :: t)).head? = some '{' := by
          unfold cutTail
          rw [List.head?_reverse]
          exact hlast
        cases hct : cutTail ('{' :: t) with
        | nil => rw [hct] at hhead; simp at hhead
        | cons x xs =>
          rw [hct] at hhead
          simp only [List.head?_cons, Option.some.injEq] at hhead
          exact ⟨xs, by rw [hhead]⟩
    · rw [extract_json_block, if_neg hc]
      exact ih

/-- `repair_json` keeps a leading `{`. -/
theorem repair_jsonL_brace (r : List Char) :
    ∃ r2, repair_jsonL ('{' :: r) = '{' :: r2 := by
  simp only [repair_jsonL, List.isEmpty_cons, replOne, List.map_cons, reduceIte,
    Bool.false_eq_true, if_false, stripTrailingCommas, List.length_cons, stripTCAux]
  exact ⟨_, rfl⟩

/-! ### Claim C1 -/

/-- C1, counterexample: on the raw text `"42"`, which is valid JSON for a
number, `safe_json_loads` returns the integer `42` — not a mapping — so the
claim that it always returns a mapping from strings to JSON values fails. -/
theorem c1_counterexample :
    safe_json_loads "42" = Json.num "42" ∧ (safe_json_loads "42").isObj = false := by
  constructor
  · decide
  · decide

/-- C1 (amended): `normalize` (`safe_json_loads`) is total — every
`except Exception` of the source is a `none` branch of the model, so no
exception escapes — and for every string: when the raw text itself parses
as JSON, the result is exactly that parsed value (the sole way a
non-mapping can be produced); and when the direct parse fails, the result
is a mapping, possibly empty: the two fallback strategies parse a block
that starts at a `{`, and the final fallback is the empty mapping. -/
theorem c1_normalize_total_shape (s : String) :
    (∀ v, pyJsonLoads s = some v → safe_json_loads s = v)
  ∧ (pyJsonLoads s = none → (safe_json_loads s).isObj = true) := by
  constructor
  · intro v hv
    unfold safe_json_loads
    rw [hv]
  · intro hn
    unfold safe_json_loads
    rw [hn]
    rcases extract_json_block_shape s.data with he | ⟨t, he⟩
    · rw [he]; rfl
    · rw [he]
      cases h2 : pyJsonLoadsL ('{' :: t) with
      | some v =>
        simpa [h2] using pyJsonLoadsL_brace_isObj t v h2
      | none =>
        obtain ⟨r2, hr⟩ := repair_jsonL_brace t
        cases h3 : pyJsonLoadsL (repair_jsonL ('{' :: t)) with
        | some v =>
          rw [hr] at h3
          simpa [h2, hr, h3] using pyJsonLoadsL_brace_isObj r2 v h3
        | none => simp [h2, h3, Json.isObj]

/-! ### Claim C6 -/

/-- The regex-modelled block extraction equals the spec's wording of it. -/
theorem extract_eq_spec (l : List Char) :
    extract_json_block l = specExtract l := by
  induction l with
  | nil => rfl
  | cons c t ih =>
    by_cases hc : c = '{'
    · subst hc; rfl
    · rw [extract_json_block, if_neg hc, ih]
      unfold specExtract
      rw [List.dropWhile_cons_of_pos (by simpa using hc)]

/-- The chain of four single-character `str.replace` calls equals one map of
the spec's quote normalization. -/
theorem replOne_chain (l : List Char) :
    replOne '‘' '\'' (replOne '’' '\'' (replOne '”' '"' (replOne '“' '"' l)))
      = l.map specQuoteFix := by
  simp only [replOne, List.map_map]
  refine List.map_congr_left ?_
  intro c _
  simp only [Function.comp]
  unfold specQuoteFix
  by_cases h1 : c = '“'
  · subst h1; rfl
  · by_cases h2 : c = '”'
    · subst h2; rfl
    · by_cases h3 : c = '’'
      · subst h3; rfl
      · by_cases h4 : c = '‘'
        · subst h4; rfl
        · simp [h1, h2, h3, h4]

/-- `repair_json` equals the spec's repair (quote map, then trailing-comma
deletion); the source's empty-string guard is the identity either way. -/
theorem repair_eq_spec (l : List Char) :
    repair_jsonL l = specRepair l := by
  cases l with
  | nil => rfl
  | cons c t =>
    unfold repair_jsonL specRepair
    rw [if_neg (by simp)]
    rw [replOne_chain]

/-- C6: `safe_json_loads` implements exactly the spec's ordered strategy
list — direct parse first, then the first-`{`-to-last-`}` block, then the
block after the two repairs (straight quotes, trailing commas deleted), and
the empty mapping when everything fails; the first success wins. -/
theorem c6_strategy_refinement (s : String) :
    safe_json_loads s = normalize_spec s := by
  unfold safe_json_loads normalize_spec
  cases hp : pyJsonLoads s with
  | some v => rfl
  | none =>
    rw [extract_eq_spec]
    cases hb : specExtract s.data with
    | nil => rfl
    | cons c t =>
      cases h2 : pyJsonLoadsL (c :: t) with
      | some v => simp [h2]
      | none => simp [h2, repair_eq_spec]

/-! ### Claim C10 -/

/-- C10: `normalize_payload` replaces any non-`dict` input (number, string,
list, `None`, booleans) by `{}` up front, so it returns the same
fully-populated fallback record as on the empty mapping; being a total Lean
function, it raises nothing. -/
theorem c10_nonmapping (j : Json) (h : String) (hobj : j.isObj = false) :
    normalize_payload j h = normalize_payload (Json.obj []) h := by
  cases j with
  | obj kvs => simp [Json.isObj] at hobj
  | null => rfl
  | bool b => rfl
  | num n => rfl
  | str s => rfl
  | arr xs => rfl

/-- C10 witness at the number `7`. -/
theorem c10_witness :
    (Json.num "7").isObj = false ∧
      normalize_payload (Json.num "7") "seed" = normalize_payload (Json.obj []) "seed" :=
  ⟨rfl, c10_nonmapping (Json.num "7") "seed" rfl⟩

/-! ### Claim C2 -/

/-- C2, counterexample: `fill({}, seed)` is *not* equal to the full default
document: the source unconditionally recomputes `read_aloud` as the
`" / "`-join of the story lines, and the default document's hand-written
`read_aloud` ("Hello! / Let’s read ...") differs from the join of the
default story ("Hello! Let’s read ..."). -/
theorem c2_counterexample :
    normalize_payload (Json.obj []) "seed" ≠ default_payload "seed" ∧
      (normalize_payload (Json.obj []) "seed").read_aloud
        ≠ (default_payload "seed").read_aloud := by
  constructor
  · decide
  · decide

/-- C2 (amended): `fill({}, seed)` is deterministic (it is a pure function
of its arguments) and returns the default document with `read_aloud`
replaced by the `" / "`-join of the default story lines; every field is
non-empty and valid per the data-model invariants (non-empty title, four
non-empty story lines, five words with non-empty `word`, non-empty
read-aloud text and parent note, answer keys in the valid domain). -/
theorem c2_full_default (h : String) :
    normalize_payload (Json.obj []) h
        = { default_payload h with read_aloud := String.intercalate " / " defStory }
      ∧ (normalize_payload (Json.obj []) h).title ≠ ""
      ∧ (normalize_payload (Json.obj []) h).story.length = 4
      ∧ (normalize_payload (Json.obj []) h).story.all (fun s => !s.isEmpty) = true
      ∧ (normalize_payload (Json.obj []) h).words.length = 5
      ∧ (normalize_payload (Json.obj []) h).words.all (fun w => !w.word.isEmpty) = true
      ∧ (normalize_payload (Json.obj []) h).read_aloud ≠ ""
      ∧ (normalize_payload (Json.obj []) h).quiz.mcq.answer = "A"
      ∧ (normalize_payload (Json.obj []) h).quiz.pic.answer = "A"
      ∧ (normalize_payload (Json.obj []) h).parent_note_ko ≠ "" := by
  refine ⟨rfl, ?_, ?_, ?_, ?_, ?_, ?_, ?_, ?_, ?_⟩
  · show defTitle ≠ ""
    decide
  · show defStory.length = 4
    decide
  · show defStory.all (fun s => !s.isEmpty) = true
    decide
  · show defWords.length = 5
    decide
  · show defWords.all (fun w => !w.word.isEmpty) = true
    decide
  · show String.intercalate " / " defStory ≠ ""
    decide
  · rfl
  · rfl
  · show defParentNote ≠ ""
    decide

/-! ### Claim C5 -/

/-- C5: field-level, not document-level, fallback.  The whole result
factors into per-field projections: every field is a function of the value
at its own key alone (read-aloud also of the computed story), equal to the
cleaned model data when that is present, well-typed and non-empty and to
the fixed default otherwise — `titleField`, `storyField`, `wordsField` and
the other field functions spell out those per-field rules, so sibling
fields never influence each other's fallback; and on the concrete parsed
input with a valid title and an empty story list, the title is kept while
the story falls back to the default. -/
theorem c5_field_level_fallback (j : Json) (h : String) :
    normalize_payload j h =
      { title := titleField (j.get? "title")
        topic := topicField (j.get? "topic")
        story := storyField (j.get? "story")
        words := wordsField (j.get? "words")
        read_aloud := readAloudField (j.get? "read_aloud") (storyField (j.get? "story"))
        quiz := quizField (j.get? "quiz")
        parent_note_ko := noteField (j.get? "parent_note_ko")
        debug_headline := h }
  ∧ (normalize_payload (Json.obj [("title", Json.str "Cats"), ("story", Json.arr [])]) h).title
      = "Cats"
  ∧ (normalize_payload (Json.obj [("title", Json.str "Cats"), ("story", Json.arr [])]) h).story
      = defStory :=
  ⟨normalize_payload_fields j h, rfl, rfl⟩

/-! ### Claim C8 -/

/-- C8: the `readAloud` field equals `readAloudField` applied to the raw
value at `read_aloud` and the record's own story lines: a present,
string-typed value that is non-empty after trimming is kept trimmed, and in
every other case (absent, wrong-typed, or empty after trimming) the field is
the `" / "`-join of the record's `storyLines`. -/
theorem c8_read_aloud (j : Json) (h : String) :
    (normalize_payload j h).read_aloud
      = readAloudField (j.get? "read_aloud") ((normalize_payload j h).story) := by
  rw [normalize_payload_fields]

/-- The quiz block factors into independent per-sub-field projections of the
three sub-objects. -/
theorem applyQuiz_fields (quiz : Json) :
    applyQuiz quiz defQuiz =
      { tf := { q := quizQField (quiz.get? "tf") defQuiz.tf.q,
                answer := tfAnswerField (quiz.get? "tf") defQuiz.tf.answer },
        mcq := { q := quizQField (quiz.get? "mcq") defQuiz.mcq.q,
                 choices :=
                   { A := choiceField "A" (quiz.get? "mcq") defQuiz.mcq.choices.A,
                     B := choiceField "B" (quiz.get? "mcq") defQuiz.mcq.choices.B,
                     C := choiceField "C" (quiz.get? "mcq") defQuiz.mcq.choices.C },
                 answer := keyAnswerField (quiz.get? "mcq") defQuiz.mcq.answer },
        pic := { q := quizQField (quiz.get? "pic") defQuiz.pic.q,
                 choices :=
                   { A := choiceField "A" (quiz.get? "pic") defQuiz.pic.choices.A,
                     B := choiceField "B" (quiz.get? "pic") defQuiz.pic.choices.B,
                     C := choiceField "C" (quiz.get? "pic") defQuiz.pic.choices.C },
                 answer := keyAnswerField (quiz.get? "pic") defQuiz.pic.answer } } := by
  simp only [applyQuiz, defQuiz, quizQField, tfAnswerField, choiceField, keyAnswerField]

/-- A defaulted answer key stays in the valid domain. -/
theorem keyAnswerField_mem (o : Option Json) :
    keyAnswerField o "A" = "A" ∨ keyAnswerField o "A" = "B" ∨ keyAnswerField o "A" = "C" := by
  unfold keyAnswerField
  rcases o with _ | v
  · left; rfl
  rcases v with _ | b | n | s | xs | m
  · left; rfl
  · left; rfl
  · left; rfl
  · left; rfl
  · left; rfl
  cases ha : (Json.obj m).get? "answer" with
  | none => simp [ha]
  | some w =>
    rcases w with _ | b | n | s | xs | mm
    · simp [ha]
    · simp [ha]
    · simp [ha]
    · simp only [ha]
      by_cases h1 : pyUpper (pyStrip s) = "A"
      · left; simp [h1]
      · by_cases h2 : pyUpper (pyStrip s) = "B"
        · right; left; simp [h2]
        · by_cases h3 : pyUpper (pyStrip s) = "C"
          · right; right; simp [h3]
          · left; simp [h1, h2, h3]
    · simp [ha]
    · simp [ha]

/-! ### Claim C4 -/

/-- C4: the answer keys of `multipleChoice` and `pictureChoice` produced by
`fill` always lie in the domain A/B/C, for every parsed input; and when a
quiz object is supplied, each answer key is `keyAnswerField` of its
sub-object — the supplied value is accepted exactly when its strip-and-
uppercase normalization is `A`, `B` or `C` and the default key `A` is kept
otherwise — while each question text is `quizQField` and each choice entry
is `choiceField` of the same sub-object, functions that do not look at the
answer value at all, so valid question and choices text is retained even
when the key falls back. -/
theorem c4_answer_key_domain (j : Json) (h : String) :
    ((normalize_payload j h).quiz.mcq.answer = "A"
      ∨ (normalize_payload j h).quiz.mcq.answer = "B"
      ∨ (normalize_payload j h).quiz.mcq.answer = "C")
  ∧ ((normalize_payload j h).quiz.pic.answer = "A"
      ∨ (normalize_payload j h).quiz.pic.answer = "B"
      ∨ (normalize_payload j h).quiz.pic.answer = "C")
  ∧ (∀ qv, j.get? "quiz" = some (Json.obj qv) →
       (normalize_payload j h).quiz.mcq.answer
           = keyAnswerField ((Json.obj qv).get? "mcq") "A"
         ∧ (normalize_payload j h).quiz.pic.answer
           = keyAnswerField ((Json.obj qv).get? "pic") "A"
         ∧ (normalize_payload j h).quiz.mcq.q
           = quizQField ((Json.obj qv).get? "mcq") defQuiz.mcq.q
         ∧ (normalize_payload j h).quiz.pic.q
           = quizQField ((Json.obj qv).get? "pic") defQuiz.pic.q
         ∧ (normalize_payload j h).quiz.mcq.choices.A
           = choiceField "A" ((Json.obj qv).get? "mcq") defQuiz.mcq.choices.A
         ∧ (normalize_payload j h).quiz.mcq.choices.B
           = choiceField "B" ((Json.obj qv).get? "mcq") defQuiz.mcq.choices.B
         ∧ (normalize_payload j h).quiz.mcq.choices.C
           = choiceField "C" ((Json.obj qv).get? "mcq") defQuiz.mcq.choices.C
         ∧ (normalize_payload j h).quiz.pic.choices.A
           = choiceField "A" ((Json.obj qv).get? "pic") defQuiz.pic.choices.A
         ∧ (normalize_payload j h).quiz.pic.choices.B
           = choiceField "B" ((Json.obj qv).get? "pic") defQuiz.pic.choices.B
         ∧ (normalize_payload j h).quiz.pic.choices.C
           = choiceField "C" ((Json.obj qv).get? "pic") defQuiz.pic.choices.C) := by
  have hq : (normalize_payload j h).quiz = quizField (j.get? "quiz") := by
    rw [normalize_payload_fields]
  refine ⟨?_, ?_, ?_⟩
  · rw [hq]
    cases hqz : j.get? "quiz" with
    | none => left; rfl
    | some v =>
      rcases v with _ | b | n | s | xs | qv
      · left; rfl
      · left; rfl
      · left; rfl
      · left; rfl
      · left; rfl
      · show (applyQuiz (Json.obj qv) defQuiz).mcq.answer = _ ∨ _ ∨ _
        rw [applyQuiz_fields]
        exact keyAnswerField_mem _
  · rw [hq]
    cases hqz : j.get? "quiz" with
    | none => left; rfl
    | some v =>
      rcases v with _ | b | n | s | xs | qv
      · left; rfl
      · left; rfl
      · left; rfl
      · left; rfl
      · left; rfl
      · show (applyQuiz (Json.obj qv) defQuiz).pic.answer = _ ∨ _ ∨ _
        rw [applyQuiz_fields]
        exact keyAnswerField_mem _
  · intro qv hqz
    rw [hq, hqz]
    refine ⟨?_, ?_, ?_, ?_, ?_, ?_, ?_, ?_, ?_, ?_⟩
    · show (applyQuiz (Json.obj qv) defQuiz).mcq.answer = _
      rw [applyQuiz_fields]
      rfl
    · show (applyQuiz (Json.obj qv) defQuiz).pic.answer = _
      rw [applyQuiz_fields]
      rfl
    · show (applyQuiz (Json.obj qv) defQuiz).mcq.q = _
      rw [applyQuiz_fields]
    · show (applyQuiz (Json.obj qv) defQuiz).pic.q = _
      rw [applyQuiz_fields]
    · show (applyQuiz (Json.obj qv) defQuiz).mcq.choices.A = _
      rw [applyQuiz_fields]
    · show (applyQuiz (Json.obj qv) defQuiz).mcq.choices.B = _
      rw [applyQuiz_fields]
    · show (applyQuiz (Json.obj qv) defQuiz).mcq.choices.C = _
      rw [applyQuiz_fields]
    · show (applyQuiz (Json.obj qv) defQuiz).pic.choices.A = _
      rw [applyQuiz_fields]
    · show (applyQuiz (Json.obj qv) defQuiz).pic.choices.B = _
      rw [applyQuiz_fields]
    · show (applyQuiz (Json.obj qv) defQuiz).pic.choices.C = _
      rw [applyQuiz_fields]

/-! ### Claim C3 -/

/-- C3: upsert is idempotent per date.  Starting from any archive and
upserting twice with entries sharing a date, the result is the second entry
followed by the original entries with that date removed: so there is
exactly one entry for that date, it carries the latest entry (hence the
latest title), and it is first in the sequence. -/
theorem c3_upsert_idempotent (arch : List ArchiveEntry) (e1 e2 : ArchiveEntry)
    (hd : e1.date = e2.date) :
    upsert (upsert arch e1) e2 = e2 :: arch.filter (fun a => a.date != e2.date)
  ∧ (upsert (upsert arch e1) e2).countP (fun a => a.date == e2.date) = 1
  ∧ (upsert (upsert arch e1) e2).head? = some e2 := by
  have hmain : upsert (upsert arch e1) e2
      = e2 :: arch.filter (fun a => a.date != e2.date) := by
    unfold upsert
    rw [List.filter_cons]
    rw [show (e1.date != e2.date) = false by simp [hd]]
    simp only [Bool.false_eq_true, if_false]
    rw [List.filter_filter]
    congr 1
    refine List.filter_congr ?_
    intro a _
    rw [hd, Bool.and_self]
  refine ⟨hmain, ?_, by rw [hmain]; rfl⟩
  rw [hmain, List.countP_cons]
  have h0 : (arch.filter (fun a => a.date != e2.date)).countP
      (fun a => a.date == e2.date) = 0 := by
    rw [List.countP_eq_zero]
    intro a ha
    rw [List.mem_filter] at ha
    simpa using ha.2
  rw [h0]
  simp

/-- C3 witness: a concrete republication for the same date with a changed
title. -/
theorem c3_witness :
    upsert (upsert [⟨"2025-01-01", "days/2025-01-01.html", "Old"⟩]
        ⟨"2025-01-02", "days/2025-01-02.html", "First"⟩)
        ⟨"2025-01-02", "days/2025-01-02.html", "Second"⟩
      = [⟨"2025-01-02", "days/2025-01-02.html", "Second"⟩,
         ⟨"2025-01-01", "days/2025-01-01.html", "Old"⟩]
  ∧ (upsert (upsert [⟨"2025-01-01", "days/2025-01-01.html", "Old"⟩]
        ⟨"2025-01-02", "days/2025-01-02.html", "First"⟩)
        ⟨"2025-01-02", "days/2025-01-02.html", "Second"⟩).head?
      = some ⟨"2025-01-02", "days/2025-01-02.html", "Second"⟩ := by
  have h := c3_upsert_idempotent [⟨"2025-01-01", "days/2025-01-01.html", "Old"⟩]
      ⟨"2025-01-02", "days/2025-01-02.html", "First"⟩
      ⟨"2025-01-02", "days/2025-01-02.html", "Second"⟩ rfl
  exact ⟨h.1.trans (by decide), h.2.2⟩

/-! ### Claim C7 -/

/-- C7, counterexample: the writer never sorts, so upserting an entry dated
*earlier* than an archived entry (a back-dated run against an archive that
already holds a later date) breaks the descending-order invariant even
though the starting state was valid and the new file is derived from its
date. -/
theorem c7_counterexample :
    validArchive [⟨"2026-02-02", dayFile "2026-02-02", "B"⟩]
  ∧ ¬ validArchive (upsert [⟨"2026-02-02", dayFile "2026-02-02", "B"⟩]
        ⟨"2026-01-01", dayFile "2026-01-01", "A"⟩) := by
  constructor
  · decide
  · decide

/-- C7 (amended): when the upserted entry's date is no earlier than any
archived date — as holds in normal daily operation — the upsert written by
`main` preserves the invariants: the result is still strictly descending
with derived file paths, has pairwise-distinct dates (at most one entry per
date), and the new entry is first. -/
theorem c7_upsert_invariants (arch : List ArchiveEntry) (d t : String)
    (hv : validArchive arch) (hle : ∀ a ∈ arch, dateLe a.date d) :
    validArchive (upsert arch ⟨d, dayFile d, t⟩)
  ∧ (upsert arch ⟨d, dayFile d, t⟩).Pairwise (fun a b => a.date ≠ b.date)
  ∧ (upsert arch ⟨d, dayFile d, t⟩).head? = some ⟨d, dayFile d, t⟩ := by
  obtain ⟨hp, hf⟩ := hv
  unfold upsert
  have hfilter : ∀ a ∈ arch.filter (fun a => a.date != d), dateLt a.date d := by
    intro a ha
    rw [List.mem_filter] at ha
    exact dateLt_of_dateLe_of_ne (hle a ha.1) (by simpa using ha.2)
  refine ⟨⟨?_, ?_⟩, ?_, rfl⟩
  · rw [List.pairwise_cons]
    exact ⟨hfilter, hp.sublist (List.filter_sublist _)⟩
  · intro a ha
    rcases List.mem_cons.mp ha with rfl | ha
    · rfl
    · exact hf a (List.mem_filter.mp ha).1
  · rw [List.pairwise_cons]
    refine ⟨fun b hb => (dateLt_ne (hfilter b hb)).symm, ?_⟩
    exact (hp.sublist (List.filter_sublist _)).imp (fun hab => (dateLt_ne hab).symm)

/-- C7 witness: a concrete valid single-entry archive and a later date. -/
theorem c7_witness :
    validArchive (upsert [⟨"2026-02-01", dayFile "2026-02-01", "x"⟩]
        ⟨"2026-02-02", dayFile "2026-02-02", "y"⟩)
  ∧ (upsert [⟨"2026-02-01", dayFile "2026-02-01", "x"⟩]
        ⟨"2026-02-02", dayFile "2026-02-02", "y"⟩).Pairwise (fun a b => a.date ≠ b.date)
  ∧ (upsert [⟨"2026-02-01", dayFile "2026-02-01", "x"⟩]
        ⟨"2026-02-02", dayFile "2026-02-02", "y"⟩).head?
      = some ⟨"2026-02-02", dayFile "2026-02-02", "y"⟩ :=
  c7_upsert_invariants [⟨"2026-02-01", dayFile "2026-02-01", "x"⟩] "2026-02-02" "y"
    (by decide) (by decide)

/-! ### Claim C9 -/

/-- C9: `load_archive` with no persisted state returns the empty sequence
without raising, and on a persisted file that `json.loads` rejects it
raises — there is no handler, no recovery and no repair in `load_archive`,
so the error propagates. -/
theorem c9_load_archive (txt : String) (hbad : pyJsonLoads txt = none) :
    load_archive none = Except.ok (Json.arr [])
  ∧ load_archive (some txt) = Except.error () := by
  refine ⟨rfl, ?_⟩
  show (match pyJsonLoads txt with
        | some v => Except.ok v
        | none => Except.error ()) = Except.error ()
  rw [hbad]

/-- C9 witness at a concrete malformed persisted file. -/
theorem c9_witness :
    load_archive none = Except.ok (Json.arr [])
  ∧ load_archive (some "oops") = Except.error () :=
  c9_load_archive "oops" (by decide)
